import Mathlib

/-!
Verification development for nestly's `nestrun.py` command scheduler
(src/nestly/scripts/nestrun.py).  The Python source is shallowly embedded:
pure string/template manipulation becomes Lean functions, the process-pool
control loop `invoke` becomes an executable interpreter over an explicit
state (store of `NestlyProcess` records, pool of store indices, remaining
job files), and the nondeterministic `os.wait()` is determinized by an
explicit schedule of (pool index, raw 16-bit wait status) pairs.
Side effects (file writes, log opens, SIGTERM deliveries, summary writes)
are recorded in an event trace, and the pool size is recorded in a separate
size trace at every point where the pool changes.
-/

namespace Nestrun

/-- Terminal / running states of a `NestlyProcess`
(`self.status` in the Python class). -/
inductive PStatus
  | RUNNING
  | COMPLETE
  | FAILED
  | TERMINATED
deriving Repr, DecidableEq

/-- Embedding of the `NestlyProcess` class: metadata about one launched
child process.  Timestamps are modelled as naturals drawn from a logical
clock threaded through the interpreter. -/
structure NestlyProcess where
  command : List String
  working_dir : String
  pid : Nat
  return_code : Option Nat
  start_time : Nat
  end_time : Option Nat
  status : PStatus
deriving Repr, DecidableEq

/-- `NestlyProcess.__init__`: a freshly launched process record. -/
def NestlyProcess.init (command : List String) (working_dir : String)
    (pid : Nat) (now : Nat) : NestlyProcess :=
  { command := command
    working_dir := working_dir
    pid := pid
    return_code := none
    start_time := now
    end_time := none
    status := .RUNNING }

/-- `NestlyProcess.complete(return_code)`: finalize after a natural exit.
The Python is `self.status = 'COMPLETE' if not return_code else 'FAILED'`. -/
def NestlyProcess.complete (p : NestlyProcess) (return_code : Nat) (now : Nat) :
    NestlyProcess :=
  { p with
    return_code := some return_code
    status := if return_code = 0 then .COMPLETE else .FAILED
    end_time := some now }

/-- `NestlyProcess.terminate()`: mark as terminated after sending SIGTERM
(the `self.popen.terminate()` call itself is recorded as an event by the
caller). -/
def NestlyProcess.terminate (p : NestlyProcess) (now : Nat) : NestlyProcess :=
  { p with
    end_time := some now
    status := .TERMINATED }

/-- `running_time` property: `end_time - start_time` when finished. -/
def NestlyProcess.running_time (p : NestlyProcess) : Option Nat :=
  p.end_time.map (fun e => e - p.start_time)

/-- One piece of a `str.format`-style template: literal text or a
`\x7bname\x7d` placeholder. -/
inductive TmplPart
  | lit (s : String)
  | hole (k : String)
deriving Repr, DecidableEq

/-- Lookup in a job-descriptor dictionary (JSON object). -/
def lookupKey (d : List (String × String)) (k : String) : Option String :=
  match d with
  | [] => none
  | (k', v) :: rest => if k' = k then some v else lookupKey rest k

/-- `template.format(**d)`: substitute placeholders left to right; a
placeholder whose key is absent raises `KeyError k`, modelled as
`.error k`. -/
def renderTmpl : List TmplPart → List (String × String) → Except String String
  | [], _ => .ok ""
  | .lit s :: rest, d => (renderTmpl rest d).map (fun t => s ++ t)
  | .hole k :: rest, d =>
    match lookupKey d k with
    | none => .error k
    | some v => (renderTmpl rest d).map (fun t => v ++ t)

/-- `os.path.dirname`: everything before the last slash (empty when the
path has no slash). -/
def dirname (s : String) : String :=
  String.intercalate "/" (s.splitOn "/").dropLast

/-- `os.path.basename`: everything after the last slash. -/
def basename (s : String) : String :=
  ((s.splitOn "/").getLast?).getD ""

/-- `os.path.join` for one relative component. -/
def joinPath (a b : String) : String :=
  if a = "" then b else a ++ "/" ++ b

/-- `shlex.split` restricted to whitespace-separated tokens (no quoting in
the commands considered here). -/
def splitCmd (s : String) : List String :=
  (s.splitOn " ").filter (fun t => t ≠ "")

/-- Content of one job-descriptor JSON file: either invalid JSON
(`json.load` raises `ValueError`) or a flat string-to-string object. -/
inductive JsonContent
  | malformed
  | object (d : List (String × String))
deriving Repr, DecidableEq

/-- One input job: its descriptor path and content, plus the environment's
responses to the OS calls the job triggers.  `copymode_err` is the errno of
the `OSError` raised by `shutil.copymode` (`none` for success);
`popen_err` is the errno of the `OSError` raised by `subprocess.Popen`
(`none` means the child starts and gets pid `pid`). -/
structure JobFile where
  path : String
  content : JsonContent
  copymode_err : Option Nat
  popen_err : Option Nat
  pid : Nat
deriving Repr, DecidableEq

/-- The shared run-configuration dictionary `data` built by
`parse_arguments`.  `template_file` carries the source path and its parsed
template contents; `summary_file` records whether a summary file was
opened. -/
structure RunData where
  dry_run : Bool
  template : List TmplPart
  template_file : Option (String × List TmplPart)
  savecmd_file : Option String
  log_file : String
  stop_on_error : Bool
  summary_file : Bool
deriving Repr, DecidableEq

/-- Python exceptions relevant to the control loop. -/
inductive PyExc
  | ValueError
  | KeyError (k : String)
  | OSError (errno : Nat)
deriving Repr, DecidableEq

/-- One row of the tab-delimited summary written by `write_summary`. -/
structure SummaryRow where
  directory : String
  command : String
  start_time : Nat
  end_time : Option Nat
  run_time : Option Nat
  exit_status : Option Nat
  result : PStatus
deriving Repr, DecidableEq

/-- Rows produced by `write_summary` for the accumulated `all_procs`. -/
def summaryRows (procs : List NestlyProcess) : List SummaryRow :=
  procs.map (fun p =>
    { directory := p.working_dir
      command := String.intercalate " " p.command
      start_time := p.start_time
      end_time := p.end_time
      run_time := p.running_time
      exit_status := p.return_code
      result := p.status })

/-- Observable side effects of a run. -/
inductive Event
  | wroteTemplateFile (path : String) (contents : String)
  | copiedPermissions (src : String) (dst : String)
  | warnedPermCopy (dst : String)
  | wroteSavecmd (path : String) (contents : String)
  | dryRunLogged (dir : String) (cmd : String)
  | openedLog (path : String)
  | procStarted (pid : Nat) (cmd : String) (dir : String)
  | sigterm (pid : Nat)
  | summaryWritten (rows : List SummaryRow)
deriving Repr, DecidableEq

/-- Result of driving the `worker` generator to its first `yield` (the
`g.next()` call in `invoke`): it pauses at `yield nestproc`, finishes
without yielding (dry run), or raises. -/
inductive WorkerStep
  | yielded (p : NestlyProcess)
  | finished
  | raised (e : PyExc)
deriving Repr, DecidableEq

/-- Embedding of `worker(data, json_file)` run to its first `yield`.
Follows the source order: load JSON, render and stage the template file
(with best-effort-for-EPERM permission copy), render the command, write
the save-cmd file, then either log a dry run or open the log and start the
child.  Events record the file side effects in program order. -/
def workerFirst (data : RunData) (jf : JobFile) (now : Nat) :
    WorkerStep × List Event :=
  match jf.content with
  | .malformed => (.raised .ValueError, [])
  | .object d =>
    let jdir := dirname jf.path
    let tstage : Except (PyExc × List Event) (List Event) :=
      match data.template_file with
      | none => .ok []
      | some (tf, tcontents) =>
        let outt := joinPath jdir (basename tf)
        match renderTmpl tcontents d with
        | .error k => .error (.KeyError k, [])
        | .ok s =>
          match jf.copymode_err with
          | none => .ok [.wroteTemplateFile outt s, .copiedPermissions tf outt]
          | some ec =>
            if ec = 1 then .ok [.wroteTemplateFile outt s, .warnedPermCopy outt]
            else .error (.OSError ec, [.wroteTemplateFile outt s])
    match tstage with
    | .error (exc, evs) => (.raised exc, evs)
    | .ok evs1 =>
      match renderTmpl data.template d with
      | .error k => (.raised (.KeyError k), evs1)
      | .ok work =>
        let evs2 := evs1 ++ (match data.savecmd_file with
          | none => []
          | some f => [Event.wroteSavecmd (joinPath jdir f) (work ++ "\n")])
        if data.dry_run then
          (.finished, evs2 ++ [.dryRunLogged jdir work])
        else
          match jf.popen_err with
          | some e => (.raised (.OSError e),
              evs2 ++ [.openedLog (joinPath jdir data.log_file)])
          | none =>
            (.yielded (NestlyProcess.init (splitCmd work) jdir jf.pid now),
             evs2 ++ [.openedLog (joinPath jdir data.log_file),
                      .procStarted jf.pid work jdir])

/-- Update the element at index `i` of a list (identity when out of
range).  Models in-place mutation of an aliased `NestlyProcess` object
held both by `all_procs` and `running_procs`. -/
def updateAt (i : Nat) (f : α → α) : List α → List α
  | [] => []
  | x :: xs =>
    match i with
    | 0 => f x :: xs
    | j + 1 => x :: updateAt j f xs

/-- Outcome of a run of `invoke`. -/
inductive Outcome
  | done
  | exited (code : Nat)
  | crashed (e : PyExc)
  | stuck
deriving Repr, DecidableEq

/-- `_terminate_procs(running_procs)` without the final `sys.exit(1)`:
each pool member is sent SIGTERM (event) and its record is marked
`TERMINATED` via `NestlyProcess.terminate`. -/
def terminateProcs (procs : List NestlyProcess) (running : List Nat)
    (now : Nat) : List NestlyProcess × List Event :=
  (running.foldl (fun a i => updateAt i (fun p => p.terminate now) a) procs,
   running.map (fun i => Event.sigterm (((procs[i]?).map NestlyProcess.pid).getD 0)))

/-- `_terminate_procs` including its `sys.exit(1)`: terminate the pool and
end the whole run with exit code 1.  The `SystemExit` this raises is never
caught, so statements following a `_terminate_procs(...)` call in `invoke`
(a `write_summary` call and a `break`) are unreachable. -/
def cancelRun (procs : List NestlyProcess) (running : List Nat) (now : Nat) :
    Outcome × List NestlyProcess × List Event :=
  let t := terminateProcs procs running now
  (.exited 1, t.1, t.2)

/-- `errno.ECHILD`: `os.wait()` with no children raises `OSError` with
this errno. -/
def ECHILD : Nat := 10

/-- Events emitted by `write_summary(all_procs, summary_file)`:
nothing when no summary file was given, otherwise one write of all rows. -/
def writeSummaryEvents (hasFile : Bool) (procs : List NestlyProcess) :
    List Event :=
  if hasFile then [Event.summaryWritten (summaryRows procs)] else []

/-- High byte of the 16-bit status returned by `os.wait()`:
`exit_status = status >> 8` in `invoke`. -/
def waitExitStatus (status : Nat) : Nat := status >>> 8

/-- Continuation after the filling phase: either `invoke` returned (or the
process exited / an exception escaped), or control falls through to the
`os.wait()` call with the given pool and remaining files. -/
inductive FillNext
  | ret (out : Outcome)
  | toWait (running : List Nat) (files : List JobFile)
deriving Repr, DecidableEq

/-- Result of the filling phase: updated store, emitted events, pool sizes
recorded after each launch, advanced clock, and the continuation. -/
structure FillOut where
  procs : List NestlyProcess
  evs : List Event
  sizes : List Nat
  now : Nat
  next : FillNext
deriving Repr, DecidableEq

/-- The inner `while len(running_procs) < max_procs` loop of `invoke`:
pull the next job file, drive its worker generator to the first yield,
and dispatch on the result exactly as the source does (only
`StopIteration` and `OSError` are caught; any other exception escapes and
crashes `invoke`).  On exhausted input with an empty pool, write the
summary and return. -/
def fill (data : RunData) (maxp : Int) :
    List JobFile → List NestlyProcess → List Nat → Nat → FillOut
  | [], procs, running, now =>
    if (running.length : Int) < maxp then
      if running.isEmpty then
        { procs := procs
          evs := writeSummaryEvents data.summary_file procs
          sizes := []
          now := now
          next := .ret .done }
      else
        { procs := procs, evs := [], sizes := [], now := now
          next := .toWait running [] }
    else
      { procs := procs, evs := [], sizes := [], now := now
        next := .toWait running [] }
  | jf :: rest, procs, running, now =>
    if (running.length : Int) < maxp then
      match workerFirst data jf now with
      | (.finished, evs) =>
        let r := fill data maxp rest procs running (now + 1)
        { r with evs := evs ++ r.evs }
      | (.raised e, evs) =>
        match e with
        | .OSError _ =>
          -- caught by `except OSError` in `invoke`
          if data.stop_on_error then
            let c := cancelRun procs running (now + 1)
            { procs := c.2.1, evs := evs ++ c.2.2, sizes := [], now := now + 1
              next := .ret c.1 }
          else
            let r := fill data maxp rest procs running (now + 1)
            { r with evs := evs ++ r.evs }
        | _ =>
          -- ValueError / KeyError are not caught anywhere in `invoke`
          { procs := procs, evs := evs, sizes := [], now := now
            next := .ret (.crashed e) }
      | (.yielded p, evs) =>
        let r := fill data maxp rest (procs ++ [p]) (running ++ [procs.length])
                  (now + 1)
        { r with evs := evs ++ r.evs, sizes := (running.length + 1) :: r.sizes }
    else
      { procs := procs, evs := [], sizes := [], now := now
        next := .toWait running (jf :: rest) }

/-- The run result: outcome, final `all_procs` store, event trace, and the
trace of pool sizes after each pool change. -/
structure RunResult where
  outcome : Outcome
  procs : List NestlyProcess
  events : List Event
  sizes : List Nat
deriving Repr, DecidableEq

/-- The `while True` control loop of `invoke`: fill the pool, then block
in `os.wait()` (determinized by `sched`, whose head names the pool index
that exits and its raw wait status), pop and finalize that record, and
either cancel (stop-on-error and non-zero exit) or loop.  `os.wait()` with
an empty pool raises `OSError ECHILD`, which nothing catches.  `fuel`
bounds the number of loop iterations; exhausting it (or the schedule) is
reported as `stuck`. -/
def invokeLoop (data : RunData) (maxp : Int) :
    Nat → List JobFile → List NestlyProcess → List Nat →
    List (Nat × Nat) → Nat → RunResult
  | 0, _, procs, _, _, _ =>
    { outcome := .stuck, procs := procs, events := [], sizes := [] }
  | fuel + 1, files, procs, running, sched, now =>
    let f := fill data maxp files procs running now
    match f.next with
    | .ret out =>
      { outcome := out, procs := f.procs, events := f.evs, sizes := f.sizes }
    | .toWait running' files' =>
      match running' with
      | [] =>
        { outcome := .crashed (.OSError ECHILD), procs := f.procs
          events := f.evs, sizes := f.sizes }
      | _ :: _ =>
        match sched with
        | [] =>
          { outcome := .stuck, procs := f.procs, events := f.evs
            sizes := f.sizes }
        | (idx, status) :: sched' =>
          match running'[idx]? with
          | none =>
            { outcome := .stuck, procs := f.procs, events := f.evs
              sizes := f.sizes }
          | some pi =>
            let es := waitExitStatus status
            let now' := f.now + 1
            let procs' := updateAt pi (fun p => p.complete es now') f.procs
            let running'' := running'.eraseIdx idx
            if es ≠ 0 ∧ data.stop_on_error then
              let c := cancelRun procs' running'' (now' + 1)
              { outcome := c.1, procs := c.2.1, events := f.evs ++ c.2.2
                sizes := f.sizes ++ [running''.length] }
            else
              let r := invokeLoop data maxp fuel files' procs' running''
                        sched' (now' + 1)
              { outcome := r.outcome, procs := r.procs
                events := f.evs ++ r.events
                sizes := f.sizes ++ running''.length :: r.sizes }

/-- `invoke(max_procs, data, json_files)` with an explicit wait schedule
and fuel.  The initial pool is empty, recorded as the first size. -/
def invoke (maxp : Int) (data : RunData) (files : List JobFile)
    (sched : List (Nat × Nat)) (fuel : Nat) : RunResult :=
  let r := invokeLoop data maxp fuel files [] [] sched 0
  { r with sizes := 0 :: r.sizes }

/-! Event classifiers used to state the claims. -/

/-- The event is a summary write. -/
def isSummaryEvent : Event → Bool
  | .summaryWritten _ => true
  | _ => false

/-- The event opens a per-job log file. -/
def isOpenedLog : Event → Bool
  | .openedLog _ => true
  | _ => false

/-- The event starts a child process. -/
def isProcStarted : Event → Bool
  | .procStarted _ _ _ => true
  | _ => false

/-- The event starts a child process with the given pid. -/
def startedPid (n : Nat) : Event → Bool
  | .procStarted p _ _ => p = n
  | _ => false

/-- The worker generator paused at its `yield`. -/
def isYielded : WorkerStep → Bool
  | .yielded _ => true
  | _ => false

/-- The ProcessRecord invariants claimed by the spec for `NestlyProcess`. -/
def recordInv (p : NestlyProcess) : Prop :=
  (p.status = .RUNNING ↔ p.end_time = none) ∧
  (p.status = .COMPLETE ↔ p.return_code = some 0) ∧
  (p.status = .FAILED ↔ (p.return_code ≠ none ∧ p.return_code ≠ some 0))

/-! Concrete run configurations and jobs used by the scenario parts of the
claims. -/

/-- Base configuration: literal template `job`, default log name, no
template file, no save-cmd file, no summary file, stop-on-error off. -/
def baseData : RunData :=
  { dry_run := false, template := [.lit "job"], template_file := none,
    savecmd_file := none, log_file := "log.txt", stop_on_error := false,
    summary_file := false }

/-- Stop-on-error on and a summary file configured. -/
def dataStopSummary : RunData :=
  { baseData with stop_on_error := true, summary_file := true }

/-- Summary file configured, stop-on-error off. -/
def dataDoneSummary : RunData := { baseData with summary_file := true }

/-- A well-formed job whose child starts fine and gets pid 11. -/
def jobA : JobFile :=
  { path := "a/ctl.json", content := .object [], copymode_err := none,
    popen_err := none, pid := 11 }

/-- Same as `jobA` in directory `b`, pid 12. -/
def jobB : JobFile := { jobA with path := "b/ctl.json", pid := 12 }

/-- Same as `jobA` in directory `c`, pid 13. -/
def jobC : JobFile := { jobA with path := "c/ctl.json", pid := 13 }

/-- A job whose descriptor file is not valid JSON. -/
def badJob : JobFile := { jobA with content := .malformed }

/-- A job whose `Popen` call raises `OSError` errno 2 (ENOENT). -/
def osFailJob : JobFile := { jobA with popen_err := some 2 }

/-- C2 scenario: concurrency limit 1, stop-on-error, summary file; three
jobs; the first exits 0 and the second exits with raw status 256
(exit status 1). -/
def runStopScenario : RunResult :=
  invoke 1 dataStopSummary [jobA, jobB, jobC] [(0, 0), (0, 256)] 9

/-- A normally completing one-job run with a summary file. -/
def runDoneScenario : RunResult :=
  invoke 1 dataDoneSummary [jobA] [(0, 0)] 3

/-- C3 scenario: concurrency limit 2, stop-on-error; the first job exits
with raw status 256 while the second is still in the pool. -/
def runCancelScenario : RunResult :=
  invoke 2 dataStopSummary [jobA, jobB, jobC] [(0, 256)] 5

/-- Configuration whose command template references the key `n`. -/
def dataMissKey : RunData := { baseData with template := [.lit "echo ", .hole "n"] }

/-- Configuration with a template file. -/
def tmplData : RunData :=
  { baseData with template_file := some ("t/tpl.sh", [.lit "body"]) }

/-- A job whose `shutil.copymode` raises `OSError` errno 13 (EACCES). -/
def jfPermDenied : JobFile := { jobA with copymode_err := some 13 }

/-- A job whose `shutil.copymode` raises `OSError` errno 1 (EPERM). -/
def jfPermEperm : JobFile := { jobA with copymode_err := some 1 }

/-- Dry-run configuration with a template file and a save-cmd file. -/
def dryFullData : RunData :=
  { baseData with
    dry_run := true
    template := [.lit "echo ", .hole "n"]
    template_file := some ("t/tpl.sh", [.lit "run ", .hole "n"])
    savecmd_file := some "cmd.sh" }

/-- A job whose descriptor binds `n` to `1`. -/
def jobN : JobFile := { jobA with content := .object [("n", "1")] }

/-- The event is a permission-copy warning. -/
def isPermWarn : Event → Bool
  | .warnedPermCopy _ => true
  | _ => false

/-! Basic lemmas about the list helpers. -/

theorem updateAt_length (i : Nat) (f : α → α) (l : List α) :
    (updateAt i f l).length = l.length := by
  induction l generalizing i with
  | nil => simp [updateAt]
  | cons x xs ih =>
    cases i with
    | zero => simp [updateAt]
    | succ j => simp [updateAt, ih]

theorem updateAt_getElem?_eq (i : Nat) (f : α → α) (l : List α) :
    (updateAt i f l)[i]? = (l[i]?).map f := by
  induction l generalizing i with
  | nil => simp [updateAt]
  | cons x xs ih =>
    cases i with
    | zero => simp [updateAt]
    | succ j => simpa [updateAt] using ih j

theorem updateAt_getElem?_ne (i j : Nat) (f : α → α) (l : List α)
    (h : j ≠ i) : (updateAt i f l)[j]? = l[j]? := by
  induction l generalizing i j with
  | nil => simp [updateAt]
  | cons x xs ih =>
    cases i with
    | zero =>
      cases j with
      | zero => exact absurd rfl h
      | succ j' => simp [updateAt]
    | succ i' =>
      cases j with
      | zero => simp [updateAt]
      | succ j' =>
        have : j' ≠ i' := fun hji => h (by rw [hji])
        simpa [updateAt] using ih i' j' this

theorem length_eraseIdx_le (l : List α) (i : Nat) :
    (l.eraseIdx i).length ≤ l.length := by
  induction l generalizing i with
  | nil => simp [List.eraseIdx]
  | cons x xs ih =>
    cases i with
    | zero => simp [List.eraseIdx]
    | succ j =>
      simpa [List.eraseIdx] using Nat.succ_le_succ (ih j)

/-- Claim C5: every `NestlyProcess` record reachable by the operations the
scheduler performs on it (creation, then at most one of `complete` or
`terminate`) satisfies the state invariants: `RUNNING` iff `end_time`
unset, `COMPLETE` iff the recorded exit status is `0`, `FAILED` iff a
non-zero exit status is recorded; moreover a natural-exit finalization
(`complete`) never yields `TERMINATED`, which arises exactly from the
explicit `terminate` cancellation operation. -/
theorem process_record_invariants (cmd : List String) (wd : String)
    (pid t rc t' : Nat) :
    recordInv (NestlyProcess.init cmd wd pid t) ∧
    recordInv ((NestlyProcess.init cmd wd pid t).complete rc t') ∧
    recordInv ((NestlyProcess.init cmd wd pid t).terminate t') ∧
    (NestlyProcess.init cmd wd pid t).status ≠ .TERMINATED ∧
    (∀ (p : NestlyProcess) (rc2 t2 : Nat),
       (p.complete rc2 t2).status ≠ .TERMINATED) ∧
    (∀ (p : NestlyProcess) (t2 : Nat),
       (p.terminate t2).status = .TERMINATED) := by
  refine ⟨?_, ?_, ?_, ?_, ?_, ?_⟩
  · simp [recordInv, NestlyProcess.init]
  · by_cases h : rc = 0 <;>
      simp [recordInv, NestlyProcess.init, NestlyProcess.complete, h]
  · simp [recordInv, NestlyProcess.init, NestlyProcess.terminate]
  · simp [NestlyProcess.init]
  · intro p rc2 t2
    by_cases h : rc2 = 0 <;> simp [NestlyProcess.complete, h]
  · intro p t2
    simp [NestlyProcess.terminate]

/-- Claim C9: the scheduler records `status >> 8` as the exit status of the
reaped child, so a child whose raw 16-bit wait status is below 256 (e.g.
one killed by a signal, where the low byte holds the signal number and the
high byte is zero) is recorded with exit status `0` and finalized as
`COMPLETE`, not `FAILED`.  The concrete runs ground this in the control
loop: raw status 15 (SIGTERM kill) yields a `COMPLETE` record with exit
status 0, while raw status 515 = 2 * 256 + 3 yields exit status 2 and
`FAILED`. -/
theorem wait_status_highbyte_complete (status : Nat) (p : NestlyProcess)
    (now : Nat) (h : status < 256) :
    waitExitStatus status = 0 ∧
    (p.complete (waitExitStatus status) now).status = .COMPLETE ∧
    (p.complete (waitExitStatus status) now).return_code = some 0 ∧
    ((invoke 1
        { dry_run := false, template := [.lit "job"], template_file := none,
          savecmd_file := none, log_file := "log.txt", stop_on_error := false,
          summary_file := false }
        [{ path := "a/ctl.json", content := .object [], copymode_err := none,
           popen_err := none, pid := 11 }]
        [(0, 15)] 3).procs.map
          (fun q => (q.return_code, q.status)) = [(some 0, .COMPLETE)]) ∧
    ((invoke 1
        { dry_run := false, template := [.lit "job"], template_file := none,
          savecmd_file := none, log_file := "log.txt", stop_on_error := false,
          summary_file := false }
        [{ path := "a/ctl.json", content := .object [], copymode_err := none,
           popen_err := none, pid := 11 }]
        [(0, 515)] 3).procs.map
          (fun q => (q.return_code, q.status)) = [(some 2, .FAILED)]) := by
  have h0 : waitExitStatus status = 0 := by
    rw [waitExitStatus, Nat.shiftRight_eq_div_pow]
    exact Nat.div_eq_of_lt h
  refine ⟨h0, ?_, ?_, by decide, by decide⟩
  · rw [h0]; simp [NestlyProcess.complete]
  · rw [h0]; simp [NestlyProcess.complete]

/-- Witness for `wait_status_highbyte_complete` at raw wait status 15. -/
theorem wait_status_highbyte_complete_witness :
    waitExitStatus 15 = 0 ∧
    ((NestlyProcess.init ["job"] "a" 11 0).complete (waitExitStatus 15) 1).status
      = PStatus.COMPLETE := by
  have h := wait_status_highbyte_complete 15
    (NestlyProcess.init ["job"] "a" 11 0) 1 (by decide)
  exact ⟨h.1, h.2.1⟩

/-- Once an entry of the store is `TERMINATED` with the given end time,
the remaining `_terminate_procs` iterations keep it so. -/
theorem termFold_preserves (now : Nat) (running : List Nat)
    (procs : List NestlyProcess) (i : Nat) (q : NestlyProcess)
    (hq : procs[i]? = some q) (h1 : q.status = .TERMINATED)
    (h2 : q.end_time = some now) :
    ∃ q', (running.foldl
        (fun a j => updateAt j (fun p => p.terminate now) a) procs)[i]?
          = some q'
      ∧ q'.status = .TERMINATED ∧ q'.end_time = some now := by
  induction running generalizing procs q with
  | nil => exact ⟨q, hq, h1, h2⟩
  | cons j rest ih =>
    simp only [List.foldl_cons]
    by_cases hji : i = j
    · subst hji
      refine ih _ (q := q.terminate now) ?_ ?_ ?_
      · rw [updateAt_getElem?_eq, hq]; rfl
      · simp [NestlyProcess.terminate]
      · simp [NestlyProcess.terminate]
    · refine ih _ (q := q) ?_ h1 h2
      rw [updateAt_getElem?_ne _ _ _ _ hji, hq]

/-- `_terminate_procs` marks every pool member `TERMINATED` with the
current time as `end_time`. -/
theorem termFold_terminated (now : Nat) (running : List Nat)
    (procs : List NestlyProcess) (i : Nat)
    (hmem : i ∈ running) (hlen : i < procs.length) :
    ∃ q', (running.foldl
        (fun a j => updateAt j (fun p => p.terminate now) a) procs)[i]?
          = some q'
      ∧ q'.status = .TERMINATED ∧ q'.end_time = some now := by
  induction running generalizing procs with
  | nil => cases hmem
  | cons j rest ih =>
    simp only [List.foldl_cons]
    by_cases hji : i = j
    · subst hji
      have hq : (updateAt i (fun p => p.terminate now) procs)[i]?
          = some ((procs.get ⟨i, hlen⟩).terminate now) := by
        rw [updateAt_getElem?_eq, List.getElem?_eq_getElem hlen]
        rfl
      exact termFold_preserves now rest _ i _ hq
        (by simp [NestlyProcess.terminate]) (by simp [NestlyProcess.terminate])
    · have h' : i ∈ rest := by
        rcases List.mem_cons.mp hmem with h | h
        · exact absurd h hji
        · exact h
      exact ih _ h' (by rw [updateAt_length]; exact hlen)

/-- Claim C3: when stop-on-error is set and a pool member exits non-zero,
the cancellation sequence runs: `_terminate_procs` sends SIGTERM to every
process still in the pool, marks each of their records
`state = TERMINATED` with `end_time` set to the current time, and the run
ends via `sys.exit(1)`, a non-zero process-level outcome.  The concrete
scenario grounds this in the control loop: with limit 2 and stop-on-error,
the first job exiting with raw status 256 leaves the second job SIGTERMed
and `TERMINATED`, and the run outcome is exit code 1. -/
theorem cancellation_sequence (procs : List NestlyProcess)
    (running : List Nat) (now i : Nat)
    (h1 : i ∈ running) (h2 : i < procs.length) :
    (cancelRun procs running now).1 = .exited 1 ∧
    Event.sigterm ((procs[i]?.map NestlyProcess.pid).getD 0)
        ∈ (cancelRun procs running now).2.2 ∧
    (∃ q, ((cancelRun procs running now).2.1)[i]? = some q ∧
        q.status = .TERMINATED ∧ q.end_time = some now) ∧
    runCancelScenario.outcome = .exited 1 ∧
    Event.sigterm 12 ∈ runCancelScenario.events ∧
    runCancelScenario.procs.map NestlyProcess.status
      = [.FAILED, .TERMINATED] := by
  refine ⟨rfl, ?_, ?_, by decide, by decide, by decide⟩
  · exact List.mem_map_of_mem _ h1
  · exact termFold_terminated now running procs i h1 h2

/-- Witness for `cancellation_sequence`: a one-entry pool. -/
theorem cancellation_sequence_witness :
    (cancelRun [NestlyProcess.init ["job"] "a" 11 0] [0] 5).1
        = Outcome.exited 1 ∧
    (∃ q, ((cancelRun [NestlyProcess.init ["job"] "a" 11 0] [0] 5).2.1)[0]?
        = some q ∧ q.status = PStatus.TERMINATED ∧ q.end_time = some 5) := by
  have h := cancellation_sequence [NestlyProcess.init ["job"] "a" 11 0] [0] 5 0
    (by decide) (by decide)
  exact ⟨h.1, h.2.2.1⟩

/-- `worker` never writes the summary (summary writes happen only in
`write_summary`, called from `invoke`). -/
theorem workerFirst_no_summary (data : RunData) (jf : JobFile) (now : Nat) :
    ∀ e ∈ (workerFirst data jf now).2, isSummaryEvent e = false := by
  unfold workerFirst
  repeat' split
  all_goals simp_all [isSummaryEvent]

/-- `_terminate_procs` sends signals only; it never writes the summary. -/
theorem terminateProcs_no_summary (procs : List NestlyProcess)
    (running : List Nat) (now : Nat) :
    ∀ e ∈ (terminateProcs procs running now).2, isSummaryEvent e = false := by
  intro e he
  unfold terminateProcs at he
  simp only [List.mem_map] at he
  obtain ⟨i, _, rfl⟩ := he
  rfl

/-- In dry-run mode the worker generator never reaches its `yield`
(whatever else the job does, no process is started). -/
theorem workerFirst_dry_not_yielded (data : RunData) (jf : JobFile)
    (now : Nat) (h : data.dry_run = true) :
    isYielded (workerFirst data jf now).1 = false := by
  unfold workerFirst
  repeat' split
  all_goals simp_all [isYielded]

/-- Count form of `terminateProcs_no_summary`. -/
theorem terminateProcs_summary_count (ps : List NestlyProcess)
    (rs : List Nat) (t : Nat) :
    (terminateProcs ps rs t).2.countP isSummaryEvent = 0 :=
  List.countP_eq_zero.mpr
    (by intro a ha; simp [terminateProcs_no_summary _ _ _ a ha])

/-- Combined facts about one filling phase, proved in one induction over
the remaining job files: the summary is written at most once and never on
the path that falls through to `os.wait()`; when the pool respects the
bound on entry it respects it throughout (each recorded size and the pool
handed to the wait); and in dry-run mode the store and the pool are left
untouched. -/
theorem fill_facts (data : RunData) (maxp : Int) :
    ∀ (files : List JobFile) (procs : List NestlyProcess)
      (running : List Nat) (now : Nat),
    ((fill data maxp files procs running now).evs.countP isSummaryEvent ≤ 1) ∧
    (∀ r fs, (fill data maxp files procs running now).next = .toWait r fs →
      (fill data maxp files procs running now).evs.countP isSummaryEvent = 0) ∧
    ((running.length : Int) ≤ maxp →
      ∀ n ∈ (fill data maxp files procs running now).sizes, (n : Int) ≤ maxp) ∧
    ((running.length : Int) ≤ maxp →
      ∀ r fs, (fill data maxp files procs running now).next = .toWait r fs →
        (r.length : Int) ≤ maxp) ∧
    (data.dry_run = true → running = [] →
      (fill data maxp files procs running now).procs = procs) ∧
    (data.dry_run = true →
      ∀ r fs, (fill data maxp files procs running now).next = .toWait r fs →
        r = running) := by
  intro files
  induction files with
  | nil =>
    intro procs running now
    simp only [fill]
    by_cases hlt : (running.length : Int) < maxp
    · rw [if_pos hlt]
      by_cases hemp : running.isEmpty
      · rw [if_pos hemp]
        refine ⟨?_, ?_, ?_, ?_, ?_, ?_⟩ <;>
          simp [writeSummaryEvents, isSummaryEvent,
            apply_ite (List.countP isSummaryEvent)]
        split_ifs <;> simp
      · rw [if_neg hemp]
        refine ⟨by simp, by simp, by simp, ?_, by simp, ?_⟩
        · intro h r fs hn
          simp only [FillNext.toWait.injEq] at hn
          rw [← hn.1]; exact h
        · intro _ r fs hn
          simp only [FillNext.toWait.injEq] at hn
          exact hn.1.symm
    · rw [if_neg hlt]
      refine ⟨by simp, by simp, by simp, ?_, by simp, ?_⟩
      · intro h r fs hn
        simp only [FillNext.toWait.injEq] at hn
        rw [← hn.1]; exact h
      · intro _ r fs hn
        simp only [FillNext.toWait.injEq] at hn
        exact hn.1.symm
  | cons jf rest ih =>
    intro procs running now
    have hwz : (workerFirst data jf now).2.countP isSummaryEvent = 0 :=
      List.countP_eq_zero.mpr
        (by intro a ha; simp [workerFirst_no_summary data jf now a ha])
    simp only [fill]
    by_cases hlt : (running.length : Int) < maxp
    · rw [if_pos hlt]
      rcases hwf : workerFirst data jf now with ⟨step, evs⟩
      rw [hwf] at hwz
      simp only at hwz
      cases step with
      | finished =>
        dsimp only
        obtain ⟨i1, i2, i3, i4, i5, i6⟩ := ih procs running (now + 1)
        refine ⟨?_, ?_, ?_, ?_, ?_, ?_⟩
        · simpa [List.countP_append, hwz] using i1
        · intro r fs hn
          simp only [List.countP_append, hwz, Nat.zero_add]
          exact i2 r fs hn
        · exact i3
        · exact i4
        · exact i5
        · exact i6
      | yielded p =>
        dsimp only
        obtain ⟨i1, i2, i3, i4, i5, i6⟩ :=
          ih (procs ++ [p]) (running ++ [procs.length]) (now + 1)
        have hlen : ((running ++ [procs.length]).length : Int) ≤ maxp := by
          simp only [List.length_append, List.length_singleton]
          push_cast
          omega
        refine ⟨?_, ?_, ?_, ?_, ?_, ?_⟩
        · simpa [List.countP_append, hwz] using i1
        · intro r fs hn
          simp only [List.countP_append, hwz, Nat.zero_add]
          exact i2 r fs hn
        · intro _ n hn
          simp only [List.mem_cons] at hn
          rcases hn with hn | hn
          · subst hn; push_cast; omega
          · exact i3 hlen n hn
        · intro _ r fs hn
          exact i4 hlen r fs hn
        · intro hdry _
          exfalso
          have := workerFirst_dry_not_yielded data jf now hdry
          rw [hwf] at this
          simp [isYielded] at this
        · intro hdry
          exfalso
          have := workerFirst_dry_not_yielded data jf now hdry
          rw [hwf] at this
          simp [isYielded] at this
      | raised e =>
        cases e with
        | OSError errno =>
          dsimp only
          by_cases hstop : data.stop_on_error = true
          · rw [if_pos hstop]
            refine ⟨?_, by simp, by simp, by simp, ?_, by simp⟩
            · simp [cancelRun, List.countP_append, hwz,
                terminateProcs_summary_count]
            · intro _ hrun
              subst hrun
              simp [cancelRun, terminateProcs]
          · rw [if_neg hstop]
            obtain ⟨i1, i2, i3, i4, i5, i6⟩ := ih procs running (now + 1)
            refine ⟨?_, ?_, ?_, ?_, ?_, ?_⟩
            · simpa [List.countP_append, hwz] using i1
            · intro r fs hn
              simp only [List.countP_append, hwz, Nat.zero_add]
              exact i2 r fs hn
            · exact i3
            · exact i4
            · exact i5
            · exact i6
        | ValueError =>
          refine ⟨by simp [hwz], by simp, by simp, by simp, by simp, by simp⟩
        | KeyError k =>
          refine ⟨by simp [hwz], by simp, by simp, by simp, by simp, by simp⟩
    · rw [if_neg hlt]
      refine ⟨by simp, by simp, by simp, ?_, by simp, ?_⟩
      · intro h r fs hn
        simp only [FillNext.toWait.injEq] at hn
        rw [← hn.1]; exact h
      · intro _ r fs hn
        simp only [FillNext.toWait.injEq] at hn
        exact hn.1.symm

/-- Combined facts about the control loop, by induction on the fuel: the
summary is written at most once per run; if the pool respects the bound on
entry every recorded pool size respects it; and a dry run with an empty
pool leaves the store untouched. -/
theorem invokeLoop_facts (data : RunData) (maxp : Int) :
    ∀ (fuel : Nat) (files : List JobFile) (procs : List NestlyProcess)
      (running : List Nat) (sched : List (Nat × Nat)) (now : Nat),
    ((invokeLoop data maxp fuel files procs running sched now).events.countP
        isSummaryEvent ≤ 1) ∧
    ((running.length : Int) ≤ maxp →
      ∀ n ∈ (invokeLoop data maxp fuel files procs running sched now).sizes,
        (n : Int) ≤ maxp) ∧
    (data.dry_run = true → running = [] →
      (invokeLoop data maxp fuel files procs running sched now).procs
        = procs) := by
  intro fuel
  induction fuel with
  | zero =>
    intro files procs running sched now
    exact ⟨by simp [invokeLoop], by simp [invokeLoop],
      by intro _ _; simp [invokeLoop]⟩
  | succ fuel ih =>
    intro files procs running sched now
    obtain ⟨f1, f2, f3, f4, f5, f6⟩ := fill_facts data maxp files procs running now
    simp only [invokeLoop]
    rcases hnx : (fill data maxp files procs running now).next with out
      | ⟨running', files'⟩
    · dsimp only
      exact ⟨f1, f3, f5⟩
    · cases running' with
      | nil =>
        dsimp only
        exact ⟨f1, f3, f5⟩
      | cons rh rt =>
        have hdrycontra : data.dry_run = true → running = [] → False := by
          intro hdry hrun
          have := f6 hdry (rh :: rt) files' hnx
          rw [hrun] at this
          simp at this
        cases sched with
        | nil =>
          dsimp only
          exact ⟨f1, f3, fun hdry hrun => absurd hrun (by
            intro h; exact hdrycontra hdry h)⟩
        | cons c sched' =>
          rcases c with ⟨idx, status⟩
          dsimp only
          rcases hge : (rh :: rt)[idx]? with _ | pi
          · dsimp only
            exact ⟨f1, f3, fun hdry hrun => absurd hrun (by
              intro h; exact hdrycontra hdry h)⟩
          · dsimp only
            have hlen'' :
                (((rh :: rt).eraseIdx idx).length : Int) ≤ ((rh :: rt).length : Int) := by
              exact_mod_cast length_eraseIdx_le (rh :: rt) idx
            by_cases hcond : waitExitStatus status ≠ 0 ∧ data.stop_on_error = true
            · rw [if_pos hcond]
              refine ⟨?_, ?_, fun hdry hrun => absurd hrun (by
                intro h; exact hdrycontra hdry h)⟩
              · simp only [List.countP_append]
                rw [f2 _ _ hnx]
                simp [cancelRun, terminateProcs_summary_count]
              · intro hb n hn
                simp only [List.mem_append, List.mem_singleton] at hn
                rcases hn with hn | hn
                · exact f3 hb n hn
                · subst hn
                  calc ((((rh :: rt).eraseIdx idx).length : Nat) : Int)
                      ≤ ((rh :: rt).length : Int) := hlen''
                    _ ≤ maxp := f4 hb _ _ hnx
            · rw [if_neg hcond]
              obtain ⟨l1, l2, l3⟩ := ih files'
                (updateAt pi (fun p =>
                  p.complete (waitExitStatus status)
                    ((fill data maxp files procs running now).now + 1))
                  (fill data maxp files procs running now).procs)
                ((rh :: rt).eraseIdx idx) sched'
                ((fill data maxp files procs running now).now + 1 + 1)
              refine ⟨?_, ?_, fun hdry hrun => absurd hrun (by
                intro h; exact hdrycontra hdry h)⟩
              · simp only [List.countP_append]
                rw [f2 _ _ hnx]
                simpa using l1
              · intro hb n hn
                simp only [List.mem_append, List.mem_cons] at hn
                have hbound : (((rh :: rt).eraseIdx idx).length : Int) ≤ maxp :=
                  le_trans hlen'' (f4 hb _ _ hnx)
                rcases hn with hn | hn | hn
                · exact f3 hb n hn
                · subst hn; exact hbound
                · exact l2 hbound n hn

/-- Claim C1: for every run with concurrency limit N ≥ 1, at every point
of the control loop the size of the running-process pool (recorded in the
size trace at each pool change: run start, each launch, each removal by
the wait) is at most N: the filling loop launches only while the pool is
strictly below N, and the wait removes the reaped entry before the loop
continues. -/
theorem pool_size_bounded (maxp : Int) (data : RunData)
    (files : List JobFile) (sched : List (Nat × Nat)) (fuel : Nat)
    (h : 1 ≤ maxp) :
    ∀ n ∈ (invoke maxp data files sched fuel).sizes, (n : Int) ≤ maxp := by
  intro n hn
  unfold invoke at hn
  simp only [List.mem_cons] at hn
  rcases hn with hn | hn
  · subst hn
    simp only [Nat.cast_zero]
    omega
  · exact (invokeLoop_facts data maxp fuel files [] [] sched 0).2.1
      (by simp only [List.length_nil, Nat.cast_zero]; omega) n hn

/-- Witness for `pool_size_bounded` on the limit-1 three-job scenario. -/
theorem pool_size_bounded_witness :
    ((invoke 1 dataStopSummary [jobA, jobB, jobC] [(0, 0), (0, 256)] 9).sizes.all
      (fun n => decide ((n : Int) ≤ 1))) = true := by
  have h := pool_size_bounded 1 dataStopSummary [jobA, jobB, jobC]
    [(0, 0), (0, 256)] 9 (by decide)
  exact List.all_eq_true.mpr (fun n hn => decide_eq_true (h n hn))

/-- Claim C2 counterexample: in the stop-on-error scenario (limit 1, three
jobs, second exits non-zero, summary file configured) the run ends with
exit code 1 and the summary is never written — `sys.exit(1)` inside
`_terminate_procs` preempts every `write_summary` call — contradicting
the claim that the summary is written exactly once at the end of every
run including cancelled ones. -/
theorem no_summary_on_cancellation_cex :
    dataStopSummary.summary_file = true ∧
    runStopScenario.outcome = Outcome.exited 1 ∧
    runStopScenario.events.countP isSummaryEvent = 0 := by
  refine ⟨rfl, by decide, by decide⟩

/-- Claim C2 (amended): the summary is written at most once per run, and a
run that drains normally with a summary file configured writes it exactly
once; but a run cancelled by stop-on-error never writes the summary,
because `sys.exit(1)` inside `_terminate_procs` is reached before any
`write_summary` call.  In the limit-1 three-job scenario with a failing
second job: the third job is never launched, the first and second records
are finalized with terminal states `COMPLETE` and `FAILED`, the run exits
1, and no summary is produced. -/
theorem summary_once_amended :
    (∀ (maxp : Int) (data : RunData) (files : List JobFile)
        (sched : List (Nat × Nat)) (fuel : Nat),
      (invoke maxp data files sched fuel).events.countP isSummaryEvent ≤ 1) ∧
    runStopScenario.outcome = Outcome.exited 1 ∧
    runStopScenario.events.countP isSummaryEvent = 0 ∧
    runStopScenario.events.countP (startedPid 13) = 0 ∧
    runStopScenario.procs.map NestlyProcess.status
      = [PStatus.COMPLETE, PStatus.FAILED] ∧
    runDoneScenario.outcome = Outcome.done ∧
    runDoneScenario.events.countP isSummaryEvent = 1 := by
  refine ⟨?_, by decide, by decide, by decide, by decide, by decide, by decide⟩
  intro maxp data files sched fuel
  unfold invoke
  exact (invokeLoop_facts data maxp fuel files [] [] sched 0).1

/-- Claim C4 counterexample: a malformed job descriptor is not handled
like a launch failure for that slot: the `ValueError` raised by
`json.load` is caught neither in `worker` (which re-raises) nor in
`invoke` (which catches only `StopIteration` and `OSError`), so the
control loop terminates on this per-job error. -/
theorem malformed_crashes_loop_cex :
    (invoke 2 baseData [badJob] [] 3).outcome
      = Outcome.crashed PyExc.ValueError := by
  decide

/-- Claim C4 (amended): only OS launch errors (`OSError`, e.g. from
`Popen`) are handled as a launch failure of the slot — without
stop-on-error the job is skipped and the loop continues with the next
file; with stop-on-error the run is cancelled.  A malformed JSON
descriptor (`ValueError`) or a template key absent from the descriptor
(`KeyError`) is not caught anywhere: it propagates out of the control
loop, which terminates with that exception. -/
theorem perjob_error_taxonomy_amended :
    (invoke 2 baseData [badJob] [] 3).outcome
      = Outcome.crashed PyExc.ValueError ∧
    (invoke 2 dataMissKey [jobA] [] 3).outcome
      = Outcome.crashed (PyExc.KeyError "n") ∧
    (invoke 2 baseData [osFailJob, jobB] [(0, 0)] 5).outcome = Outcome.done ∧
    (invoke 2 baseData [osFailJob, jobB] [(0, 0)] 5).procs.map
        NestlyProcess.pid = [12] ∧
    (invoke 2 { baseData with stop_on_error := true }
        [osFailJob, jobB] [] 5).outcome = Outcome.exited 1 ∧
    (invoke 2 { baseData with stop_on_error := true }
        [osFailJob, jobB] [] 5).events.countP isProcStarted = 0 := by
  refine ⟨by decide, by decide, by decide, by decide, by decide, by decide⟩

/-- In dry-run mode the worker opens no log file and starts no process,
whatever else the job does. -/
theorem workerFirst_dry_no_exec_events (data : RunData) (jf : JobFile)
    (now : Nat) (h : data.dry_run = true) :
    ((workerFirst data jf now).2.all
      (fun e => !(isOpenedLog e) && !(isProcStarted e))) = true := by
  unfold workerFirst
  repeat' split
  all_goals simp_all [isOpenedLog, isProcStarted]

/-- Claim C6: with dry-run set, no ProcessRecord is ever created — the
worker generator never yields, and a whole dry run leaves the store of
records empty, so dry jobs contribute nothing to the pool or the summary
— and no per-job log file is opened nor any child started; yet whenever
the worker runs to completion the substituted command string has been
computed and is reported in the dry-run log line. -/
theorem dry_run_no_record (data : RunData) (jf : JobFile) (now : Nat)
    (d : List (String × String)) (work : String)
    (h : data.dry_run = true)
    (h4 : jf.content = .object d)
    (h7 : renderTmpl data.template d = .ok work) :
    isYielded (workerFirst data jf now).1 = false ∧
    ((workerFirst data jf now).2.all
      (fun e => !(isOpenedLog e) && !(isProcStarted e))) = true ∧
    ((workerFirst data jf now).1 = .finished →
      Event.dryRunLogged (dirname jf.path) work ∈ (workerFirst data jf now).2) ∧
    (∀ (maxp : Int) (files : List JobFile) (sched : List (Nat × Nat))
        (fuel : Nat), (invoke maxp data files sched fuel).procs = []) := by
  refine ⟨workerFirst_dry_not_yielded data jf now h,
    workerFirst_dry_no_exec_events data jf now h, ?_, ?_⟩
  · unfold workerFirst
    rw [h4]
    dsimp only
    repeat' split
    all_goals intro hfin
    all_goals simp_all
  · intro maxp files sched fuel
    unfold invoke
    exact (invokeLoop_facts data maxp fuel files [] [] sched 0).2.2 h rfl

/-- Witness for `dry_run_no_record` on a dry run with template and
save-cmd files configured. -/
theorem dry_run_no_record_witness :
    isYielded (workerFirst dryFullData jobN 0).1 = false ∧
    (invoke 2 dryFullData [jobN] [] 3).procs = [] := by
  have h := dry_run_no_record dryFullData jobN 0 [("n", "1")] "echo 1"
    rfl rfl rfl
  exact ⟨h.1, h.2.2.2 2 [jobN] [] 3⟩

/-- Claim C10: in dry-run mode, file side effects other than process
creation and the log file still occur: with a template file configured,
the rendered template is written into the job directory and the source
file's permissions are copied onto it, and with a save-cmd filename
configured, the substituted command line is written to that file in the
job directory. -/
theorem dry_run_still_stages_files (data : RunData) (jf : JobFile)
    (now : Nat) (d : List (String × String)) (tf : String)
    (tc : List TmplPart) (scf ts work : String)
    (h1 : data.dry_run = true)
    (h2 : data.template_file = some (tf, tc))
    (h3 : data.savecmd_file = some scf)
    (h4 : jf.content = .object d)
    (h5 : renderTmpl tc d = .ok ts)
    (h6 : jf.copymode_err = none)
    (h7 : renderTmpl data.template d = .ok work) :
    Event.wroteTemplateFile (joinPath (dirname jf.path) (basename tf)) ts
        ∈ (workerFirst data jf now).2 ∧
    Event.copiedPermissions tf (joinPath (dirname jf.path) (basename tf))
        ∈ (workerFirst data jf now).2 ∧
    Event.wroteSavecmd (joinPath (dirname jf.path) scf) (work ++ "\n")
        ∈ (workerFirst data jf now).2 := by
  refine ⟨?_, ?_, ?_⟩ <;>
    simp [workerFirst, h1, h2, h3, h4, h5, h6, h7]

/-- Witness for `dry_run_still_stages_files` on the dry-run scenario. -/
theorem dry_run_still_stages_files_witness :
    Event.wroteTemplateFile (joinPath (dirname jobN.path) (basename "t/tpl.sh"))
      "run 1" ∈ (workerFirst dryFullData jobN 0).2 ∧
    Event.wroteSavecmd (joinPath (dirname jobN.path) "cmd.sh") "echo 1\n"
      ∈ (workerFirst dryFullData jobN 0).2 := by
  have h := dry_run_still_stages_files dryFullData jobN 0 [("n", "1")]
    "t/tpl.sh" [.lit "run ", .hole "n"] "cmd.sh" "run 1" "echo 1"
    rfl rfl rfl rfl rfl rfl rfl
  exact ⟨h.1, h.2.2⟩

/-- Claim C7 counterexample: with `max_procs = 0` and one job, the
condition is not reported as a configuration error before the loop;
`invoke` enters its loop, launches nothing, and dies on the uncaught
`OSError` (ECHILD) raised by `os.wait()` on an empty pool. -/
theorem maxprocs_zero_cex :
    (invoke 0 baseData [jobA] [(0, 0)] 3).outcome
      = Outcome.crashed (PyExc.OSError ECHILD) ∧
    (invoke 0 baseData [jobA] [(0, 0)] 3).events.countP isProcStarted = 0 := by
  refine ⟨by decide, by decide⟩

/-- With a non-positive limit, the filling phase admits nothing and falls
straight through to the wait. -/
theorem fill_nonpos (data : RunData) (maxp : Int) (files : List JobFile)
    (procs : List NestlyProcess) (running : List Nat) (now : Nat)
    (h : ¬ ((running.length : Int) < maxp)) :
    fill data maxp files procs running now
      = ⟨procs, [], [], now, .toWait running files⟩ := by
  cases files <;> simp only [fill] <;> rw [if_neg h]

/-- Claim C7 (amended): for `max_procs ≤ 0` no child process is ever
launched (the run produces no records and no events at all), but no
configuration error is reported before the loop: `invoke` enters the
control loop and crashes with the uncaught `OSError` (ECHILD) that
`os.wait()` raises on an empty pool. -/
theorem maxprocs_nonpositive_amended (maxp : Int) (data : RunData)
    (files : List JobFile) (sched : List (Nat × Nat)) (fuel : Nat)
    (h1 : maxp ≤ 0) (h2 : 1 ≤ fuel) :
    (invoke maxp data files sched fuel).outcome
      = Outcome.crashed (PyExc.OSError ECHILD) ∧
    (invoke maxp data files sched fuel).procs = [] ∧
    (invoke maxp data files sched fuel).events = [] := by
  obtain ⟨fuel', rfl⟩ : ∃ k, fuel = k + 1 := ⟨fuel - 1, by omega⟩
  have hf := fill_nonpos data maxp files [] [] 0
    (by simp only [List.length_nil, Nat.cast_zero]; omega)
  unfold invoke
  simp [invokeLoop, hf]

/-- Witness for `maxprocs_nonpositive_amended` at limit -1. -/
theorem maxprocs_nonpositive_amended_witness :
    (invoke (-1) baseData [jobA] [] 2).outcome
      = Outcome.crashed (PyExc.OSError ECHILD) ∧
    (invoke (-1) baseData [jobA] [] 2).procs = [] := by
  have h := maxprocs_nonpositive_amended (-1) baseData [jobA] [] 2
    (by decide) (by decide)
  exact ⟨h.1, h.2.1⟩

/-- Claim C8 counterexample: a permission-copy failure with errno 13
(EACCES) is not logged as a warning and does abort the job: `worker`
re-raises the `OSError`, ending the job's worker in
`raised (OSError 13)` with no permission-copy warning event. -/
theorem permcopy_eacces_aborts_cex :
    (workerFirst tmplData jfPermDenied 0).1
      = WorkerStep.raised (PyExc.OSError 13) ∧
    (workerFirst tmplData jfPermDenied 0).2.countP isPermWarn = 0 := by
  refine ⟨by decide, by decide⟩

/-- Claim C8 (amended): the permission copy when staging a rendered
template file is best-effort only for errno 1 (EPERM): that failure is
logged as a warning and the job continues exactly as if the copy had
succeeded; any other OS error re-raises out of `worker` and aborts the
job (the control loop then treats the escaped `OSError` like a launch
failure for the slot). -/
theorem permcopy_eperm_only (data : RunData) (jf : JobFile) (now : Nat)
    (d : List (String × String)) (tf : String) (tc : List TmplPart)
    (ts : String) (e : Nat)
    (h2 : data.template_file = some (tf, tc))
    (h4 : jf.content = .object d)
    (h5 : renderTmpl tc d = .ok ts) :
    (jf.copymode_err = some 1 →
      Event.warnedPermCopy (joinPath (dirname jf.path) (basename tf))
          ∈ (workerFirst data jf now).2 ∧
      (workerFirst data jf now).1
        = (workerFirst data { jf with copymode_err := none } now).1) ∧
    (jf.copymode_err = some e → e ≠ 1 →
      (workerFirst data jf now).1 = .raised (.OSError e)) := by
  constructor
  · intro hc
    refine ⟨?_, ?_⟩
    all_goals
      rcases hrt : renderTmpl data.template d with k | work
      · simp [workerFirst, h2, h4, h5, hc, hrt]
      · by_cases hdry : data.dry_run = true
        · simp [workerFirst, h2, h4, h5, hc, hrt, hdry]
        · rcases hpp : jf.popen_err with _ | pe <;>
            simp [workerFirst, h2, h4, h5, hc, hrt, hdry, hpp]
  · intro hc hne
    simp [workerFirst, h2, h4, h5, hc, hne]

/-- Witness for `permcopy_eperm_only` on the EPERM and EACCES jobs. -/
theorem permcopy_eperm_only_witness :
    (Event.warnedPermCopy (joinPath (dirname jfPermEperm.path) (basename "t/tpl.sh"))
      ∈ (workerFirst tmplData jfPermEperm 0).2) ∧
    (workerFirst tmplData jfPermDenied 0).1
      = WorkerStep.raised (PyExc.OSError 13) := by
  have h1 := permcopy_eperm_only tmplData jfPermEperm 0 [] "t/tpl.sh"
    [.lit "body"] "body" 13 rfl rfl rfl
  have h2 := permcopy_eperm_only tmplData jfPermDenied 0 [] "t/tpl.sh"
    [.lit "body"] "body" 13 rfl rfl rfl
  exact ⟨(h1.1 rfl).1, h2.2 rfl (by decide)⟩

end Nestrun
